import Mathlib

/-!
Shallow embedding of the live-voice core of `src/App.tsx` (decision-maker2),
together with theorems settling the specification's claims about it.

Bytes are modelled as natural numbers below 256, character codes as natural
numbers, audio sample values and times as rationals, and the mutable refs of
the React component (`nextStartTimeRef`, `sourcesRef`, `streamRef`, ...) as
fields of explicit state records threaded through step functions.
-/

namespace DecisionMaker

/-- Character code of the base64 digit for a sextet value `n < 64`, as produced
by the JS builtin `btoa` that `encode` (src/App.tsx lines 9-16) calls:
`A`-`Z` for 0-25, `a`-`z` for 26-51, `0`-`9` for 52-61, `+` for 62, `/` for 63. -/
def encChar (n : Nat) : Nat :=
  if n < 26 then 65 + n
  else if n < 52 then 97 + (n - 26)
  else if n < 62 then 48 + (n - 52)
  else if n = 62 then 43
  else 47

/-- Sextet value of a base64 digit character code, as consumed by the JS
builtin `atob` that `decode` (src/App.tsx lines 18-26) calls. -/
def decChar (c : Nat) : Nat :=
  if c = 43 then 62
  else if c = 47 then 63
  else if 48 ≤ c ∧ c ≤ 57 then 52 + (c - 48)
  else if 65 ≤ c ∧ c ≤ 90 then c - 65
  else if 97 ≤ c ∧ c ≤ 122 then 26 + (c - 97)
  else 0

/-- The JS builtin `btoa` on a binary string, given as the list of its
character codes (each below 256): standard base64 with `=` (code 61) padding.
Each group of three bytes `a b c` yields the four sextets
`a >>> 2`, `((a AND 3) <<< 4) OR (b >>> 4)`, `((b AND 15) <<< 2) OR (c >>> 6)`,
`c AND 63`, written with division and remainder. -/
def btoa : List Nat → List Nat
  | [] => []
  | [a] => [encChar (a / 4), encChar (a % 4 * 16), 61, 61]
  | [a, b] => [encChar (a / 4), encChar (a % 4 * 16 + b / 16), encChar (b % 16 * 4), 61]
  | a :: b :: c :: rest =>
      encChar (a / 4) :: encChar (a % 4 * 16 + b / 16) ::
        encChar (b % 16 * 4 + c / 64) :: encChar (c % 64) :: btoa rest

/-- The JS builtin `atob` on a base64 string given as its character codes,
restricted to the well-padded strings `btoa` produces; other shapes produce
`[]` here (the builtin throws on them, a case the round-trip never reaches). -/
def atob : List Nat → List Nat
  | c1 :: c2 :: c3 :: c4 :: rest =>
      if c3 = 61 then [decChar c1 * 4 + decChar c2 / 16]
      else if c4 = 61 then
        [decChar c1 * 4 + decChar c2 / 16, decChar c2 % 16 * 16 + decChar c3 / 4]
      else
        (decChar c1 * 4 + decChar c2 / 16) :: (decChar c2 % 16 * 16 + decChar c3 / 4) ::
          (decChar c3 % 4 * 64 + decChar c4) :: atob rest
  | _ => []

/-- Embedding of `encode` (src/App.tsx lines 9-16): the loop builds the binary
string whose character codes are exactly the input bytes, so the function is
`btoa` on the byte list. -/
def encode (bytes : List Nat) : List Nat := btoa bytes

/-- Embedding of `decode` (src/App.tsx lines 18-26): `atob`, then each
character code is stored into a `Uint8Array`, which truncates to 8 bits. -/
def decode (base64 : List Nat) : List Nat := (atob base64).map (fun x => x % 256)

theorem decChar_encChar : ∀ n < 64, decChar (encChar n) = n := by decide

theorem encChar_ne_pad : ∀ n < 64, encChar n ≠ 61 := by decide

theorem atob_btoa : ∀ bytes : List Nat, (∀ x ∈ bytes, x < 256) → atob (btoa bytes) = bytes
  | [], _ => rfl
  | [a], h => by
      have ha : a < 256 := h a (by simp)
      have h1 := decChar_encChar (a / 4) (by omega)
      have h2 := decChar_encChar (a % 4 * 16) (by omega)
      simp only [btoa, atob, eq_self_iff_true, if_true, h1, h2]
      have e1 : a / 4 * 4 + a % 4 * 16 / 16 = a := by omega
      rw [e1]
  | [a, b], h => by
      have ha : a < 256 := h a (by simp)
      have hb : b < 256 := h b (by simp)
      have h1 := decChar_encChar (a / 4) (by omega)
      have h2 := decChar_encChar (a % 4 * 16 + b / 16) (by omega)
      have h3 := decChar_encChar (b % 16 * 4) (by omega)
      have hne := encChar_ne_pad (b % 16 * 4) (by omega)
      simp only [btoa, atob, if_neg hne, eq_self_iff_true, if_true, h1, h2, h3]
      have e1 : a / 4 * 4 + (a % 4 * 16 + b / 16) / 16 = a := by omega
      have e2 : (a % 4 * 16 + b / 16) % 16 * 16 + b % 16 * 4 / 4 = b := by omega
      rw [e1, e2]
  | a :: b :: c :: d :: rest, h => by
      have ha : a < 256 := h a (by simp)
      have hb : b < 256 := h b (by simp)
      have hc : c < 256 := h c (by simp)
      have ih := atob_btoa (d :: rest)
        (fun x hx => h x (by simp only [List.mem_cons] at hx ⊢; tauto))
      have h1 := decChar_encChar (a / 4) (by omega)
      have h2 := decChar_encChar (a % 4 * 16 + b / 16) (by omega)
      have h3 := decChar_encChar (b % 16 * 4 + c / 64) (by omega)
      have h4 := decChar_encChar (c % 64) (by omega)
      have hne3 := encChar_ne_pad (b % 16 * 4 + c / 64) (by omega)
      have hne4 := encChar_ne_pad (c % 64) (by omega)
      simp only [btoa, atob, if_neg hne3, if_neg hne4, h1, h2, h3, h4]
      have e1 : a / 4 * 4 + (a % 4 * 16 + b / 16) / 16 = a := by omega
      have e2 : (a % 4 * 16 + b / 16) % 16 * 16 + (b % 16 * 4 + c / 64) / 4 = b := by omega
      have e3 : (b % 16 * 4 + c / 64) % 4 * 64 + c % 64 = c := by omega
      rw [e1, e2, e3, ih]
  | [a, b, c], h => by
      have ha : a < 256 := h a (by simp)
      have hb : b < 256 := h b (by simp)
      have hc : c < 256 := h c (by simp)
      have h1 := decChar_encChar (a / 4) (by omega)
      have h2 := decChar_encChar (a % 4 * 16 + b / 16) (by omega)
      have h3 := decChar_encChar (b % 16 * 4 + c / 64) (by omega)
      have h4 := decChar_encChar (c % 64) (by omega)
      have hne3 := encChar_ne_pad (b % 16 * 4 + c / 64) (by omega)
      have hne4 := encChar_ne_pad (c % 64) (by omega)
      simp only [btoa, atob, if_neg hne3, if_neg hne4, h1, h2, h3, h4]
      have e1 : a / 4 * 4 + (a % 4 * 16 + b / 16) / 16 = a := by omega
      have e2 : (a % 4 * 16 + b / 16) % 16 * 16 + (b % 16 * 4 + c / 64) / 4 = b := by omega
      have e3 : (b % 16 * 4 + c / 64) % 4 * 64 + c % 64 = c := by omega
      rw [e1, e2, e3]

theorem map_mod256_id : ∀ l : List Nat, (∀ x ∈ l, x < 256) →
    l.map (fun x => x % 256) = l
  | [], _ => rfl
  | y :: ys, h => by
      have hy : y < 256 := h y (by simp)
      simp only [List.map_cons, Nat.mod_eq_of_lt hy,
        map_mod256_id ys (fun x hx => h x (by simp [hx]))]

/-- Embedding of `decodeAudioData` (src/App.tsx lines 28-45). The input is the
`Int16Array` view of the byte buffer (a list of signed 16-bit sample values).
`frameCount = dataInt16.length / numChannels` is the fractional JS division,
which the `createBuffer` call truncates to a whole number of frames (WebIDL
unsigned-long conversion); each channel's data is filled with
`dataInt16[i * numChannels + channel] / 32768.0`, writes past the allocated
frame count being discarded by the typed array. Sample values are rationals. -/
def decodeAudioData (dataInt16 : List Int) (numChannels : Nat) : List (List ℚ) :=
  let frameCount := dataInt16.length / numChannels
  (List.range numChannels).map (fun channel =>
    (List.range frameCount).map (fun i =>
      ((dataInt16.getD (i * numChannels + channel) 0 : Int) : ℚ) / 32768))

/-- Modelled from the spec: `pcm16ToFloat` exactly as §4.1 states it, with the
`InvalidChannelLayout` failure (`none`) when the input length is not an exact
multiple of the channel count. This definition follows the spec's words, not
the source, and exists only to compare the two. -/
def pcm16ToFloatSpec (dataInt16 : List Int) (numChannels : Nat) :
    Option (List (List ℚ)) :=
  if dataInt16.length % numChannels = 0 then
    some (decodeAudioData dataInt16 numChannels)
  else none

/-- Truncation toward zero of a rational, as the JS ToIntegerOrInfinity step of
a typed-array store performs on a number. -/
def truncQ (q : ℚ) : ℤ := if 0 ≤ q then ⌊q⌋ else ⌈q⌉

/-- Wrap of an integer into signed 16-bit range, as the JS ToInt16 step of an
`Int16Array` store performs (reduce modulo 2^16, then shift into
[-32768, 32767]). -/
def toInt16 (x : ℤ) : ℤ :=
  if x % 65536 < 32768 then x % 65536 else x % 65536 - 65536

/-- Value stored for one sample by `createBlob` (src/App.tsx line 51):
`int16[i] = data[i] * 32768`, i.e. scale by 32768, truncate toward zero, wrap
to 16 bits. No clamping anywhere. -/
def createBlobSample (f : ℚ) : ℤ := toInt16 (truncQ (f * 32768))

/-- Embedding of the sample conversion loop of `createBlob`
(src/App.tsx lines 47-57), input floats as rationals. -/
def createBlob (data : List ℚ) : List ℤ := data.map createBlobSample

/-- LiveStatus enumeration of src/App.tsx line 108. -/
inductive LiveStatus
  | IDLE
  | LISTENING
  | THINKING
  | SPEAKING
  deriving DecidableEq, Repr

/-- Shape of a `LiveServerMessage` as read by the `onmessage` handler
(src/App.tsx lines 314-345): presence of `serverContent.modelTurn`, of
`serverContent.turnComplete`, of inline audio data (abstracted to the decoded
buffer's duration), and of `serverContent.interrupted`. -/
structure LiveMsg where
  modelTurn : Bool
  turnComplete : Bool
  audioDuration : Option ℚ
  interrupted : Bool
  deriving DecidableEq, Repr

/-- The mutable playback/session state the `onmessage` handler touches:
`liveStatus`, the `sourcesRef` active-set (ids in insertion order), and the
`nextStartTimeRef` cursor. -/
structure SessionState where
  status : LiveStatus
  sources : List Nat
  nextStartTime : ℚ
  deriving DecidableEq, Repr

/-- Observable effects of one `onmessage` run: the start time passed to
`source.start`, if a buffer was scheduled, and the ids on which `s.stop()` was
called by the interruption branch. -/
structure MsgEffects where
  scheduledStart : Option ℚ
  stopped : List Nat
  deriving DecidableEq, Repr

/-- Embedding of the `onmessage` handler (src/App.tsx lines 314-345) as a step
function: `now` is `outAudioCtx.currentTime` when the audio branch runs, and
`newId` the identity of the freshly created buffer source. The three blocks
run in source order: status update (315-319), audio scheduling (321-335),
interruption flush (337-344). -/
def onmessage (s : SessionState) (m : LiveMsg) (now : ℚ) (newId : Nat) :
    SessionState × MsgEffects :=
  let st1 : LiveStatus :=
    if m.modelTurn then .SPEAKING
    else if m.turnComplete then .LISTENING
    else s.status
  let sched : Option ℚ × List Nat × ℚ :=
    match m.audioDuration with
    | some d =>
        let start := max s.nextStartTime now
        (some start, s.sources ++ [newId], start + d)
    | none => (none, s.sources, s.nextStartTime)
  if m.interrupted then
    (⟨.LISTENING, [], 0⟩, ⟨sched.1, sched.2.1⟩)
  else
    (⟨st1, sched.2.1, sched.2.2⟩, ⟨sched.1, []⟩)

/-- Embedding of the `source.onended` callback (src/App.tsx lines 331-334):
remove the source from the active-set; if that empties it, set LISTENING. -/
def onended (s : SessionState) (srcId : Nat) : SessionState :=
  let remaining := s.sources.erase srcId
  { s with
    sources := remaining,
    status := if remaining = [] then .LISTENING else s.status }

/-- Teardown side effects of `stopListening` (src/App.tsx lines 251-275), in
the order the code performs them. -/
inductive TeardownAction
  | trackStop
  | closeInputCtx
  | closeOutputCtx
  | sourceStop (srcId : Nat)
  | sessionClose
  deriving DecidableEq, Repr

/-- The component refs and state that `stopListening` and `toggleVoiceInput`
read and write: each nullable ref is a `Bool` (non-null or null) except the
active-set and cursor, kept concrete. -/
structure AppState where
  isListening : Bool
  liveStatus : LiveStatus
  stream : Bool
  inputCtx : Bool
  outputCtx : Bool
  sources : List Nat
  nextStartTime : ℚ
  session : Bool
  errorMsg : Option String
  deriving DecidableEq, Repr

/-- Embedding of `stopListening` (src/App.tsx lines 251-275): returns the new
state and the list of teardown actions in the order performed. Each guarded
block only acts when its ref is non-null; afterwards every ref is null, the
active-set is empty, the cursor is 0 and the status is IDLE. -/
def stopListening (s : AppState) : AppState × List TeardownAction :=
  let acts : List TeardownAction :=
    (if s.stream then [.trackStop] else []) ++
    (if s.inputCtx then [.closeInputCtx] else []) ++
    (if s.outputCtx then [.closeOutputCtx] else []) ++
    s.sources.map (fun i => TeardownAction.sourceStop i) ++
    (if s.session then [.sessionClose] else [])
  (⟨false, .IDLE, false, false, false, [], 0, false, s.errorMsg⟩, acts)

/-- Errors `navigator.mediaDevices.getUserMedia` can reject with in the start
path of `toggleVoiceInput`: the user declined access, or no input device. -/
inductive StartError
  | PermissionDenied
  | DeviceUnavailable
  deriving DecidableEq, Repr

/-- The user-facing message set by the catch block of `toggleVoiceInput`
(src/App.tsx line 370). -/
def micErrorMessage : String := "Microphone access is needed."

/-- Embedding of `toggleVoiceInput` (src/App.tsx lines 277-372). When already
listening it delegates to `stopListening`. Otherwise it optimistically sets
LISTENING, then awaits the capture device: on rejection the catch block
(lines 366-371) resets `isListening`, sets status IDLE and surfaces
`micErrorMessage`; on success the stream, both audio contexts and the session
promise are installed. -/
def toggleVoiceInput (s : AppState) (media : Except StartError Unit) :
    AppState × List TeardownAction :=
  if s.isListening then stopListening s
  else
    match media with
    | .error _ =>
        ({ s with isListening := false, liveStatus := .IDLE,
                  errorMsg := some micErrorMessage }, [])
    | .ok _ =>
        ({ s with isListening := true, liveStatus := .LISTENING, errorMsg := none,
                  stream := true, inputCtx := true, outputCtx := true,
                  session := true }, [])

/-- Decision record persisted in history (src/types.ts), reduced to the fields
the history logic reads. -/
structure Decision where
  id : String
  dilemma : String
  createdAt : Nat
  deriving DecidableEq, Repr

/-- Embedding of `saveToHistory` (src/App.tsx lines 129-133):
`[newDecision, ...history].slice(0, 50)`. -/
def saveToHistory (newDecision : Decision) (history : List Decision) :
    List Decision :=
  (newDecision :: history).take 50

/-- C4: for every byte sequence `b`, `decode (encode b) = b` — the
binary-to-text encoder is deterministic (it is a function) and the decoder is
its exact inverse. -/
theorem claim4_decode_encode (bytes : List Nat) (h : ∀ x ∈ bytes, x < 256) :
    decode (encode bytes) = bytes := by
  unfold decode encode
  rw [atob_btoa bytes h, map_mod256_id bytes h]

/-- Witness for C4 at the concrete byte sequence [0, 61, 255, 16]. -/
theorem claim4_decode_encode_witness :
    decode (encode [0, 61, 255, 16]) = [0, 61, 255, 16] :=
  claim4_decode_encode [0, 61, 255, 16] (by decide)

/-- C5 (amended): for a positive channel count, `decodeAudioData` produces one
sample list per channel, each of length `total / channels` (exact division when
the total is a multiple of the channel count), with entry `i` of channel `c`
equal to sample `i * channels + c` scaled by 1/32768; when the length is not a
multiple, no failure occurs — the frame count is simply the truncated
quotient. -/
theorem claim5_decodeAudioData_shape (dataInt16 : List Int) (numChannels : Nat)
    (_hpos : 0 < numChannels) :
    (decodeAudioData dataInt16 numChannels).length = numChannels ∧
    (∀ ch ∈ decodeAudioData dataInt16 numChannels,
        ch.length = dataInt16.length / numChannels) ∧
    (dataInt16.length % numChannels = 0 →
        numChannels * (dataInt16.length / numChannels) = dataInt16.length) ∧
    (∀ c < numChannels, ∀ i < dataInt16.length / numChannels,
        ((decodeAudioData dataInt16 numChannels).getD c []).getD i 0 =
          ((dataInt16.getD (i * numChannels + c) 0 : Int) : ℚ) / 32768) := by
  refine ⟨by simp [decodeAudioData], ?_, ?_, ?_⟩
  · intro ch hch
    simp only [decodeAudioData, List.mem_map, List.mem_range] at hch
    obtain ⟨c, _, rfl⟩ := hch
    simp
  · intro hmod
    exact Nat.mul_div_cancel' (Nat.dvd_of_mod_eq_zero hmod)
  · intro c hc i hi
    simp [decodeAudioData, List.getD, List.getElem?_map, List.getElem?_range, hc, hi]

/-- Witness for C5 on a concrete 2-channel input of 4 samples. -/
theorem claim5_decodeAudioData_shape_witness :
    (decodeAudioData [1, 2, 3, 4] 2).length = 2 :=
  (claim5_decodeAudioData_shape [1, 2, 3, 4] 2 (by decide)).1

/-- C5 counterexample: on 3 samples with 2 channels — a length not a multiple
of the channel count — the source embedding does not fail with
InvalidChannelLayout; it returns per-channel data for the truncated frame
count, while the spec-modelled `pcm16ToFloatSpec` returns `none`. -/
theorem claim5_nonmultiple_counterexample :
    decodeAudioData [1, 2, 3] 2 = [[1 / 32768], [2 / 32768]] ∧
    pcm16ToFloatSpec [1, 2, 3] 2 = none := by
  constructor
  · rfl
  · rfl

/-- C9: `createBlobSample` always lands in signed 16-bit range, is congruent
modulo 2^16 to the truncation of the sample scaled by 32768 (fixed-width
wraparound, no clamping), and agrees with that truncation exactly whenever it
already lies in signed 16-bit range. -/
theorem claim9_createBlobSample_wraps (f : ℚ) :
    (-32768 ≤ createBlobSample f ∧ createBlobSample f < 32768) ∧
    (createBlobSample f - truncQ (f * 32768)) % 65536 = 0 ∧
    (-32768 ≤ truncQ (f * 32768) → truncQ (f * 32768) < 32768 →
        createBlobSample f = truncQ (f * 32768)) := by
  unfold createBlobSample toInt16
  generalize truncQ (f * 32768) = t
  split <;> (refine ⟨⟨?_, ?_⟩, ?_, ?_⟩ <;> omega)

/-- Witness for C9 at the in-range sample 0 (stored value 0). -/
theorem claim9_createBlobSample_wraps_witness :
    createBlobSample 0 = truncQ (0 * 32768) :=
  (claim9_createBlobSample_wraps 0).2.2 (by norm_num [truncQ]) (by norm_num [truncQ])

theorem saveToHistory_foldl_length_le :
    ∀ (ds : List Decision) (acc : List Decision), ds ≠ [] →
      (ds.foldl (fun a x => saveToHistory x a) acc).length ≤ 50
  | [], _, hne => absurd rfl hne
  | [x], acc, _ => by
      simp only [List.foldl_cons, List.foldl_nil, saveToHistory]
      simp [Nat.min_le_left]
  | x :: y :: rest, acc, _ => by
      simp only [List.foldl_cons]
      exact saveToHistory_foldl_length_le (y :: rest) _ (by simp)

/-- C10: saving a decision prepends it and truncates the history to its first
50 entries (newest-first order), so after any non-empty sequence of saves the
persisted history has at most 50 entries. -/
theorem claim10_history_bounded (d : Decision) (h : List Decision)
    (ds : List Decision) (hne : ds ≠ []) :
    saveToHistory d h = d :: h.take 49 ∧
    (saveToHistory d h).length ≤ 50 ∧
    (ds.foldl (fun acc x => saveToHistory x acc) h).length ≤ 50 := by
  refine ⟨rfl, ?_, saveToHistory_foldl_length_le ds h hne⟩
  simp [saveToHistory, Nat.min_le_left]

/-- Witness for C10 with one concrete decision saved onto an empty history. -/
theorem claim10_history_bounded_witness :
    ([(⟨"a", "b", 0⟩ : Decision)].foldl
        (fun acc x => saveToHistory x acc) []).length ≤ 50 :=
  (claim10_history_bounded ⟨"a", "b", 0⟩ [] [⟨"a", "b", 0⟩] (by simp)).2.2

/-- C1 counterexample: with the active-set still holding source 7, a
turn-complete message (no model turn, no audio, no interruption) sets the
status to LISTENING immediately — the claim says it must remain SPEAKING until
the active-set empties. -/
theorem claim1_turnComplete_counterexample :
    (onmessage ⟨.SPEAKING, [7], 5⟩ ⟨false, true, none, false⟩ 0 1).1.status =
      .LISTENING ∧
    (onmessage ⟨.SPEAKING, [7], 5⟩ ⟨false, true, none, false⟩ 0 1).1.sources =
      [7] := by
  constructor <;> rfl

/-- C1 (amended): a model-turn message sets the status to SPEAKING; a
turn-complete message without a model turn sets it to LISTENING at once, even
while the active-set is non-empty; independently, when a source ends and its
removal empties the active-set the status becomes LISTENING, and when sources
remain the status is unchanged. -/
theorem claim1_liveStatus_transitions (s : SessionState) (m : LiveMsg) (now : ℚ)
    (newId : Nat) (hni : m.interrupted = false) :
    (m.modelTurn = true → (onmessage s m now newId).1.status = .SPEAKING) ∧
    (m.modelTurn = false → m.turnComplete = true →
        (onmessage s m now newId).1.status = .LISTENING) ∧
    (∀ srcId,
        (s.sources.erase srcId = [] → (onended s srcId).status = .LISTENING) ∧
        (s.sources.erase srcId ≠ [] → (onended s srcId).status = s.status)) := by
  obtain ⟨mt, tc, ad, itr⟩ := m
  simp only at hni
  subst hni
  refine ⟨?_, ?_, ?_⟩
  · rintro rfl
    cases ad <;> simp [onmessage]
  · rintro rfl rfl
    cases ad <;> simp [onmessage]
  · intro srcId
    constructor <;> intro hrem <;> simp [onended, hrem]

/-- Witness for C1 at the counterexample state: the amended transition fires. -/
theorem claim1_liveStatus_transitions_witness :
    (onmessage ⟨.SPEAKING, [7], 5⟩ ⟨false, true, none, false⟩ 0 1).1.status =
      .LISTENING :=
  (claim1_liveStatus_transitions ⟨.SPEAKING, [7], 5⟩ ⟨false, true, none, false⟩
      0 1 rfl).2.1 rfl rfl

/-- C2: an incoming audio chunk is scheduled at `max(cursor, clock)` and the
cursor advances by its duration; if a second chunk arrives while the output
clock is still behind the advanced cursor, its start time is exactly the first
chunk's start time plus the first duration — no gap, no overlap. -/
theorem claim2_scheduling_gapless (s : SessionState) (m1 m2 : LiveMsg)
    (now1 now2 : ℚ) (id1 id2 : Nat) (d1 d2 : ℚ)
    (h1 : m1.audioDuration = some d1) (h2 : m2.audioDuration = some d2)
    (hi1 : m1.interrupted = false)
    (hclock : now2 ≤ (onmessage s m1 now1 id1).1.nextStartTime) :
    (onmessage s m1 now1 id1).2.scheduledStart = some (max s.nextStartTime now1) ∧
    (onmessage s m1 now1 id1).1.nextStartTime = max s.nextStartTime now1 + d1 ∧
    (onmessage (onmessage s m1 now1 id1).1 m2 now2 id2).2.scheduledStart =
      some (max s.nextStartTime now1 + d1) := by
  obtain ⟨mt1, tc1, ad1, itr1⟩ := m1
  simp only at h1 hi1
  subst h1
  subst hi1
  simp only [onmessage, if_false, Bool.false_eq_true] at hclock ⊢
  refine ⟨trivial, trivial, ?_⟩
  obtain ⟨mt2, tc2, ad2, itr2⟩ := m2
  simp only at h2
  subst h2
  have hmax : max (max s.nextStartTime now1 + d1) now2 =
      max s.nextStartTime now1 + d1 := max_eq_left hclock
  cases itr2 <;> simp [onmessage, hmax]

/-- Witness for C2: two chunks of durations 2 and 3 scheduled back to back. -/
theorem claim2_scheduling_gapless_witness :
    (onmessage (onmessage ⟨.LISTENING, [], 0⟩ ⟨true, false, some 2, false⟩ 1 0).1
        ⟨true, false, some 3, false⟩ 2 1).2.scheduledStart =
      some (max 0 1 + 2) :=
  (claim2_scheduling_gapless ⟨.LISTENING, [], 0⟩ ⟨true, false, some 2, false⟩
      ⟨true, false, some 3, false⟩ 1 2 0 1 2 3 rfl rfl rfl
      (by norm_num [onmessage, max_def])).2.2

/-- C3: an interrupted message (carrying no audio of its own) stops exactly
the buffers in the active-set — whatever their number N, including N = 0 —
empties the active-set, resets the start-time cursor to 0, and sets the status
to LISTENING. -/
theorem claim3_interrupted_flush (s : SessionState) (m : LiveMsg) (now : ℚ)
    (newId : Nat) (hint : m.interrupted = true) (hna : m.audioDuration = none) :
    (onmessage s m now newId).1.sources = [] ∧
    (onmessage s m now newId).1.nextStartTime = 0 ∧
    (onmessage s m now newId).1.status = .LISTENING ∧
    (onmessage s m now newId).2.stopped = s.sources := by
  obtain ⟨mt, tc, ad, itr⟩ := m
  simp only at hint hna
  subst hint
  subst hna
  simp [onmessage]

/-- Witness for C3 with N = 2 scheduled buffers: both are stopped. -/
theorem claim3_interrupted_flush_witness :
    (onmessage ⟨.SPEAKING, [3, 4], 7⟩ ⟨false, false, none, true⟩ 0 9).2.stopped =
      [3, 4] :=
  (claim3_interrupted_flush ⟨.SPEAKING, [3, 4], 7⟩ ⟨false, false, none, true⟩
      0 9 rfl rfl).2.2.2

/-- C6 counterexample: from a state with every resource live and one scheduled
buffer, `stopListening` performs the teardown as capture tracks first, then
the input context, then the output context, then the playback buffer, then the
session — not in the claimed order (buffers, output device, input device,
capture device, session). -/
theorem claim6_stop_order_counterexample :
    (stopListening ⟨true, .SPEAKING, true, true, true, [0], 1, true, none⟩).2 =
      [.trackStop, .closeInputCtx, .closeOutputCtx, .sourceStop 0,
        .sessionClose] ∧
    (stopListening ⟨true, .SPEAKING, true, true, true, [0], 1, true, none⟩).2 ≠
      [.sourceStop 0, .closeOutputCtx, .closeInputCtx, .trackStop,
        .sessionClose] := by
  constructor
  · rfl
  · decide

/-- C6 (amended): from every starting state `stopListening` succeeds and fully
tears down: afterwards nothing is listening, the status is IDLE, the stream,
both audio contexts and the session are released, the active-set is empty and
the cursor is 0; when every resource is live the teardown actions run in the
order capture tracks, input context, output context, each active playback
buffer, session. -/
theorem claim6_stopListening_teardown (s : AppState) (h1 : s.stream = true)
    (h2 : s.inputCtx = true) (h3 : s.outputCtx = true) (h4 : s.session = true) :
    (stopListening s).1.isListening = false ∧
    (stopListening s).1.liveStatus = .IDLE ∧
    (stopListening s).1.stream = false ∧
    (stopListening s).1.inputCtx = false ∧
    (stopListening s).1.outputCtx = false ∧
    (stopListening s).1.sources = [] ∧
    (stopListening s).1.nextStartTime = 0 ∧
    (stopListening s).1.session = false ∧
    (stopListening s).2 =
      TeardownAction.trackStop :: TeardownAction.closeInputCtx ::
        TeardownAction.closeOutputCtx ::
        (s.sources.map (fun i => TeardownAction.sourceStop i) ++
          [TeardownAction.sessionClose]) := by
  refine ⟨rfl, rfl, rfl, rfl, rfl, rfl, rfl, rfl, ?_⟩
  simp [stopListening, h1, h2, h3, h4]

/-- Witness for C6 at the fully-live state with one scheduled buffer. -/
theorem claim6_stopListening_teardown_witness :
    (stopListening ⟨true, .SPEAKING, true, true, true, [0], 1, true, none⟩).2 =
      TeardownAction.trackStop :: TeardownAction.closeInputCtx ::
        TeardownAction.closeOutputCtx ::
        ([0].map (fun i => TeardownAction.sourceStop i) ++
          [TeardownAction.sessionClose]) :=
  (claim6_stopListening_teardown
      ⟨true, .SPEAKING, true, true, true, [0], 1, true, none⟩
      rfl rfl rfl rfl).2.2.2.2.2.2.2.2

/-- C7: `stopListening` is idempotent — run on the state a first run leaves,
it performs no teardown action at all (every reference is already released)
and leaves the state unchanged. -/
theorem claim7_stopListening_idempotent (s : AppState) :
    (stopListening (stopListening s).1).2 = [] ∧
    (stopListening (stopListening s).1).1 = (stopListening s).1 :=
  ⟨rfl, rfl⟩

/-- C8: when a start attempt fails — the user declined microphone access or no
input device exists — startup is aborted: listening is off, the status is back
to IDLE, and the user-facing error message is surfaced. -/
theorem claim8_start_failure_aborts (s : AppState) (e : StartError)
    (h : s.isListening = false) :
    (toggleVoiceInput s (Except.error e)).1.isListening = false ∧
    (toggleVoiceInput s (Except.error e)).1.liveStatus = .IDLE ∧
    (toggleVoiceInput s (Except.error e)).1.errorMsg = some micErrorMessage ∧
    (toggleVoiceInput s (Except.error e)).2 = [] := by
  simp [toggleVoiceInput, h]

/-- Witness for C8: permission denied from the idle state. -/
theorem claim8_start_failure_aborts_witness :
    (toggleVoiceInput ⟨false, .IDLE, false, false, false, [], 0, false, none⟩
        (Except.error StartError.PermissionDenied)).1.errorMsg =
      some micErrorMessage :=
  (claim8_start_failure_aborts
      ⟨false, .IDLE, false, false, false, [], 0, false, none⟩
      StartError.PermissionDenied rfl).2.2.1

end DecisionMaker
